import Mathlib

/-!
Verification of the oncall voice-to-mockup pipeline.

This file gives a shallow embedding, in Lean 4, of the core logic of the
repository:

* the client-side ticket pipeline (`packages/client/src/App.tsx`):
  intent gating by classifier confidence, ticket creation, mockup
  generation results, variant selection, export, and the debounce of
  final transcript fragments;
* the server-side session layer (`services/session.ts`): HMAC-signed
  cookie values, access-token retrieval, single-use OAuth state;
* the server routes (`src/index.ts`): the Linear issue-creation handler
  and the OAuth callback.

Modelling conventions:
* JS strings at the cookie layer are `List Char` (named `Str`) so that
  `String.prototype.split` can be reasoned about by induction; app-level
  text is Lean `String`.
* JS numbers (classifier confidence) are modelled as exact rationals;
  the literals `0.6` and `0.7` become `mkRat 6 10` and `mkRat 7 10`.
* The HMAC-SHA256 primitive comes from node:crypto, outside this
  repository; signing is therefore parameterised by an arbitrary keyed
  digest `mac : Str → Str`, and theorems assume only what is true of any
  hex-encoded digest (nonempty, no dot character).  A concrete
  executable stand-in `hmacModel` is provided for witnesses.
* Asynchronous calls (classifier, mockup generator, token exchange,
  issue creation) are single-shot request/response functions; their
  outcomes enter the model as explicit `Except` parameters.
-/

namespace Oncall

/-- Ticket lifecycle states, from `packages/client/src/types.ts`. -/
inductive TicketStatus where
  | pending
  | generating
  | ready
  | exported
deriving DecidableEq

/-- Classifier output shape, from `IntentResult` in `types.ts`. -/
structure IntentResult where
  isUiRequest : Bool
  confidence : ℚ
  component : Option String
  intent : Option String
  context : Option String
  reasoningShort : Option String
deriving DecidableEq

/-- A surfaced intent, from `DetectedIntent` in `types.ts`. -/
structure DetectedIntent extends IntentResult where
  id : String
  transcriptText : String
  timestamp : Nat
deriving DecidableEq

/-- One generated mockup candidate, from `MockupVariant` in `types.ts`. -/
structure MockupVariant where
  name : String
  html : String
  css : String
deriving DecidableEq

/-- Mockup generation result, from `MockupResult` in `types.ts`. -/
structure MockupResult where
  variants : List MockupVariant
deriving DecidableEq

/-- A ticket, from `Ticket` in `types.ts`. -/
structure Ticket where
  id : String
  intent : DetectedIntent
  mockupVariants : List MockupVariant
  selectedVariantIndex : Option Nat
  status : TicketStatus
  createdAt : Nat
  linearUrl : Option String
deriving DecidableEq

/-- The client component state of `App.tsx` relevant to the pipeline. -/
structure AppState where
  detectedIntents : List DetectedIntent
  tickets : List Ticket
  selectedTicketId : Option String
  isGeneratingMockup : Bool
  intentIdCounter : Nat
  ticketIdCounter : Nat
deriving DecidableEq

/-- The initial state of the `App` component. -/
def initState : AppState :=
  { detectedIntents := []
    tickets := []
    selectedTicketId := none
    isGeneratingMockup := false
    intentIdCounter := 0
    ticketIdCounter := 0 }

/-- The debounce window, `INTENT_DETECTION_DELAY_MS` in `App.tsx`. -/
def INTENT_DETECTION_DELAY_MS : Nat := 800

/-- The synchronous part of the debounced callback in
`handleFinalTranscript` (`App.tsx` lines 39-64): given the classifier
result for a fragment, surface a `DetectedIntent` when
`isUiRequest && confidence > 0.6`, and additionally create a ticket in
status `generating` when `confidence > 0.7`.  Returns the new state and
the created ticket, if any. -/
def detectStep (s : AppState) (text : String) (now : Nat) (result : IntentResult) :
    AppState × Option Ticket :=
  if result.isUiRequest = true ∧ mkRat 6 10 < result.confidence then
    let intentId := s.intentIdCounter + 1
    let newIntent : DetectedIntent :=
      { toIntentResult := result
        id := "intent-" ++ toString intentId
        transcriptText := text
        timestamp := now }
    let s1 := { s with
      detectedIntents := s.detectedIntents ++ [newIntent]
      intentIdCounter := intentId }
    if mkRat 7 10 < result.confidence then
      let ticketId := s1.ticketIdCounter + 1
      let newTicket : Ticket :=
        { id := "ticket-" ++ toString ticketId
          intent := newIntent
          mockupVariants := []
          selectedVariantIndex := none
          status := TicketStatus.generating
          createdAt := now
          linearUrl := none }
      ({ s1 with
          tickets := s1.tickets ++ [newTicket]
          selectedTicketId := some newTicket.id
          ticketIdCounter := ticketId }, some newTicket)
    else (s1, none)
  else (s, none)

/-- Applying the outcome of the awaited `generateMockup` call to the
ticket it was opened for (`App.tsx` lines 66-95): on success set the
variants, select index 0 and move to `ready`; on failure move to
`pending`.  The `finally` block clears the generating flag either way. -/
def applyGeneration (s : AppState) (ticketId : String) (gen : Except String MockupResult) :
    AppState :=
  match gen with
  | Except.ok mr =>
      { s with
        tickets := s.tickets.map (fun t =>
          if t.id = ticketId then
            { t with
              mockupVariants := mr.variants
              selectedVariantIndex := some 0
              status := TicketStatus.ready }
          else t)
        isGeneratingMockup := false }
  | Except.error _ =>
      { s with
        tickets := s.tickets.map (fun t =>
          if t.id = ticketId then { t with status := TicketStatus.pending } else t)
        isGeneratingMockup := false }

/-- The full effect of one debounced classifier result on the app state:
the detection step followed, when a ticket was created, by the
generation outcome for that ticket (`App.tsx` lines 37-101). -/
def handleIntentResult (s : AppState) (text : String) (now : Nat) (result : IntentResult)
    (gen : Except String MockupResult) : AppState :=
  match detectStep s text now result with
  | (s1, none) => s1
  | (s1, some t) => applyGeneration s1 t.id gen

/-- `handleSelectTicket` (`App.tsx` lines 124-126). -/
def handleSelectTicket (s : AppState) (ticketId : String) : AppState :=
  { s with selectedTicketId := some ticketId }

/-- `handleRemoveTicket` (`App.tsx` lines 128-133). -/
def handleRemoveTicket (s : AppState) (ticketId : String) : AppState :=
  { s with
    tickets := s.tickets.filter (fun t => t.id != ticketId)
    selectedTicketId :=
      if s.selectedTicketId = some ticketId then none else s.selectedTicketId }

/-- `handleSelectMockupVariant` (`App.tsx` lines 170-179): sets
`selectedVariantIndex` of the matching ticket to the given index,
unconditionally. -/
def handleSelectMockupVariant (s : AppState) (ticketId : String) (variantIndex : Nat) :
    AppState :=
  { s with
    tickets := s.tickets.map (fun t =>
      if t.id = ticketId then { t with selectedVariantIndex := some variantIndex } else t) }

/-- Result of the `exportToLinear` call, `{id, url}` from the server. -/
structure ExportResult where
  id : String
  url : String
deriving DecidableEq

/-- `handleExportTicket` (`App.tsx` lines 135-168): only a `ready`
ticket with an existing selected variant is exported; on success the
ticket is marked `exported` and the Linear issue URL recorded; on
failure the state is unchanged. -/
def handleExportTicket (s : AppState) (ticketId : String)
    (res : Except String ExportResult) : AppState :=
  match s.tickets.find? (fun t => t.id == ticketId) with
  | none => s
  | some ticket =>
    if ticket.status ≠ TicketStatus.ready then s
    else
      match ticket.mockupVariants[ticket.selectedVariantIndex.getD 0]? with
      | none => s
      | some _ =>
        match res with
        | Except.ok r =>
            { s with
              tickets := s.tickets.map (fun t =>
                if t.id = ticketId then
                  { t with status := TicketStatus.exported, linearUrl := some r.url }
                else t) }
        | Except.error _ => s

/-- The debounce of `handleFinalTranscript` (`App.tsx` lines 30-38,
101): each arriving final fragment clears any pending timer
(`clearTimeout`) and schedules classification of its own text
`INTENT_DETECTION_DELAY_MS` later.  `debounceRun pending arrivals`
returns the texts actually classified, given the pending timer (fire
time and text) and the time-stamped arrivals in order; a pending timer
fires when the next arrival comes at or after its fire time, and any
timer still pending after the last arrival fires. -/
def debounceRun : Option (Nat × String) → List (Nat × String) → List String
  | none, [] => []
  | some (_, txt), [] => [txt]
  | none, (t, txt) :: rest =>
      debounceRun (some (t + INTENT_DETECTION_DELAY_MS, txt)) rest
  | some (fire, ptxt), (t, txt) :: rest =>
      if fire ≤ t then
        ptxt :: debounceRun (some (t + INTENT_DETECTION_DELAY_MS, txt)) rest
      else
        debounceRun (some (t + INTENT_DETECTION_DELAY_MS, txt)) rest

/-! ## Session layer (`services/session.ts`)

Cookie values are JS strings, modelled as `List Char` so that
`split(".")` is an inductively analysable function. -/

/-- JS strings at the cookie layer. -/
abbrev Str := List Char

/-- JS `String.prototype.split('.')`: cut the string at every dot,
keeping empty pieces; the empty string yields one empty piece. -/
def splitDot : Str → List Str
  | [] => [[]]
  | c :: rest =>
      if c = '.' then [] :: splitDot rest
      else
        match splitDot rest with
        | [] => [[c]]
        | s :: ss => (c :: s) :: ss

/-- A keyed digest behaves like any hex-encoded HMAC output: it is
nonempty and contains no dot.  This is all `session.ts` relies on. -/
def GoodMac (mac : Str → Str) : Prop :=
  ∀ v, mac v ≠ [] ∧ '.' ∉ mac v

/-- `sign` in `session.ts`: the hex HMAC-SHA256 digest of the value
under the configured secret.  The digest itself is node:crypto, outside
this repository, so it enters as the parameter `mac`. -/
def sign (mac : Str → Str) (value : Str) : Str := mac value

/-- `createSignedValue` in `session.ts`: dot-joined value and digest. -/
def createSignedValue (mac : Str → Str) (value : Str) : Str :=
  value ++ '.' :: sign mac value

/-- `verifySignedValue` in `session.ts`: split on dots, require exactly
two nonempty parts, require the supplied digest to have the expected
length and (in constant time) the expected content, and return the
embedded value; `none` on any rejection. -/
def verifySignedValue (mac : Str → Str) (signedValue : Str) : Option Str :=
  match splitDot signedValue with
  | [value, digest] =>
      if value = [] ∨ digest = [] then none
      else
        let expectedSignature := sign mac value
        if digest.length ≠ expectedSignature.length then none
        else if digest = expectedSignature then some value else none
  | _ => none

/-- One lowercase hex digit. -/
def hexDigitChar (n : Nat) : Char :=
  match n with
  | 0 => '0' | 1 => '1' | 2 => '2' | 3 => '3'
  | 4 => '4' | 5 => '5' | 6 => '6' | 7 => '7'
  | 8 => '8' | 9 => '9' | 10 => 'a' | 11 => 'b'
  | 12 => 'c' | 13 => 'd' | 14 => 'e' | _ => 'f'

/-- Little-endian hex rendering, fixed width. -/
def natToHex : Nat → Nat → Str
  | 0, _ => []
  | k + 1, n => hexDigitChar (n % 16) :: natToHex k (n / 16)

/-- Modelled from the spec: node:crypto `createHmac("sha256", secret)`
with hex output is external to the repository; it is modelled as a
deterministic keyed digest rendered as 64 hex characters, which is the
only shape `session.ts` depends on. -/
def hmacModel (secret : Str) (value : Str) : Str :=
  natToHex 64 ((secret ++ value).foldl mixStep 5381)
where
  mixStep (acc : Nat) (c : Char) : Nat := (acc * 131 + c.toNat + 17) % (2 ^ 256)

/-- `getLinearAccessToken` in `session.ts`: read the session cookie and
verify it; `none` on a missing cookie or verification failure. -/
def getLinearAccessToken (mac : Str → Str) (sessionCookie : Option Str) : Option Str :=
  match sessionCookie with
  | none => none
  | some signedValue => verifySignedValue mac signedValue

/-- `setLinearAccessToken` in `session.ts`: the cookie value written
for a token. -/
def setLinearAccessToken (mac : Str → Str) (token : Str) : Str :=
  createSignedValue mac token

/-- `getAndValidateOAuthState` in `session.ts`: read and verify the
state cookie, compare with the provided state, and only on success
delete the cookie (single use).  Returns the boolean result together
with the state cookie after the call. -/
def getAndValidateOAuthState (mac : Str → Str) (stateCookie : Option Str)
    (providedState : Str) : Bool × Option Str :=
  match stateCookie with
  | none => (false, none)
  | some signedValue =>
    match verifySignedValue mac signedValue with
    | none => (false, some signedValue)
    | some state =>
      if state = [] ∨ state ≠ providedState then (false, some signedValue)
      else (true, none)

/-! ## Server routes (`packages/server/src/index.ts`) -/

/-- JS truthiness of an optional query/cookie string: `undefined` and
the empty string are falsy. -/
def jsTruthy : Option Str → Bool
  | none => false
  | some v => !v.isEmpty

/-- The issue payload returned by the Linear service, `{id, url}`. -/
structure IssueResult where
  id : Str
  url : Str
deriving DecidableEq

/-- The JSON response of the `/linear/issues` route, reduced to the
fields the spec talks about. -/
structure IssuesResponse where
  status : Nat
  errorMsg : Option Str
  issue : Option IssueResult
deriving DecidableEq

/-- The 401 body of `/linear/issues`. -/
def notConnectedMsg : Str :=
  "Not connected to Linear. Please connect your Linear account first.".toList

/-- The marker the route's catch block looks for in an error message. -/
def oauthRequiredMsg : Str := "OAuth access token is required".toList

/-- The `POST /linear/issues` handler (`index.ts` lines 277-319): read
the OAuth token from the session cookie; without one answer 401 at once;
with one, delegate to `createLinearIssue` (whose outcome enters as the
`createIssue` parameter) and translate its result.  The second component
counts invocations of the issue-tracker client. -/
def linearIssuesHandler (mac : Str → Str) (sessionCookie : Option Str)
    (createIssue : Except Str IssueResult) : IssuesResponse × Nat :=
  match getLinearAccessToken mac sessionCookie with
  | none => ({ status := 401, errorMsg := some notConnectedMsg, issue := none }, 0)
  | some _ =>
    match createIssue with
    | Except.ok r => ({ status := 200, errorMsg := none, issue := some r }, 1)
    | Except.error e =>
      if oauthRequiredMsg <:+: e then
        ({ status := 401, errorMsg := some notConnectedMsg, issue := none }, 1)
      else
        ({ status := 500, errorMsg := some e, issue := none }, 1)

/-- Outcome of the OAuth callback route: the error code carried on the
redirect (if any), the access-token cookie written (if any), and the
state cookie after the request. -/
structure CallbackOutcome where
  redirectError : Option Str
  sessionCookie : Option Str
  stateCookie : Option Str
deriving DecidableEq

/-- Error code used when `code` or `state` is missing. -/
def missingCodeOrStateErr : Str := "missing_code_or_state".toList

/-- Error code used when the OAuth state fails validation. -/
def invalidStateErr : Str := "invalid_state".toList

/-- The `GET /auth/linear/callback` handler (`index.ts` lines 90-128):
check the provider `error` parameter first, then that `code` and
`state` are present, then validate the state against the state cookie;
only then exchange the code for a token (outcome in `exchange`) and, on
success, write the signed access-token cookie.  Every failure redirects
with an error code and writes no access-token cookie. -/
def authLinearCallback (mac : Str → Str) (code state oauthError : Option Str)
    (stateCookie : Option Str) (exchange : Except Str Str) : CallbackOutcome :=
  if jsTruthy oauthError then
    { redirectError := some (oauthError.getD [])
      sessionCookie := none
      stateCookie := stateCookie }
  else if !jsTruthy code || !jsTruthy state then
    { redirectError := some missingCodeOrStateErr
      sessionCookie := none
      stateCookie := stateCookie }
  else
    let validated := getAndValidateOAuthState mac stateCookie (state.getD [])
    if validated.1 then
      match exchange with
      | Except.ok token =>
          { redirectError := none
            sessionCookie := some (setLinearAccessToken mac token)
            stateCookie := validated.2 }
      | Except.error msg =>
          { redirectError := some msg
            sessionCookie := none
            stateCookie := validated.2 }
    else
      { redirectError := some invalidStateErr
        sessionCookie := none
        stateCookie := validated.2 }

/-- The data-model invariant on a single ticket: a non-null
`selectedVariantIndex` is a valid index into `mockupVariants`. -/
def ticketIndexOk (t : Ticket) : Prop :=
  ∀ i, t.selectedVariantIndex = some i → i < t.mockupVariants.length

instance ticketIndexOkDec (t : Ticket) : Decidable (ticketIndexOk t) :=
  match h : t.selectedVariantIndex with
  | none =>
      isTrue (by intro i hi; rw [h] at hi; cases hi)
  | some j =>
      if hj : j < t.mockupVariants.length then
        isTrue (by
          intro i hi
          rw [h] at hi
          injection hi with hji
          exact hji ▸ hj)
      else
        isFalse (by intro hall; exact hj (hall j h))

/-- The data-model invariant over the whole state. -/
def selectedIndexInvariant (s : AppState) : Prop :=
  ∀ t ∈ s.tickets, ticketIndexOk t

instance (s : AppState) : Decidable (selectedIndexInvariant s) :=
  List.decidableBAll ticketIndexOk s.tickets

/-! ## Concrete material for witnesses -/

/-- A concrete configured secret for witnesses. -/
def secret0 : Str := "test-secret".toList

/-- The concrete keyed digest used by witnesses. -/
def mac0 : Str → Str := hmacModel secret0

/-- The `DetectedIntent` record that `detectStep` builds when the
confidence gate passes (the `newIntent` object in `App.tsx`). -/
def mkIntent (s : AppState) (text : String) (now : Nat) (result : IntentResult) :
    DetectedIntent :=
  { toIntentResult := result
    id := "intent-" ++ toString (s.intentIdCounter + 1)
    transcriptText := text
    timestamp := now }

/-- The `Ticket` record that `detectStep` builds for a high-confidence
intent (the `newTicket` object in `App.tsx`). -/
def mkTicket (s : AppState) (text : String) (now : Nat) (result : IntentResult) : Ticket :=
  { id := "ticket-" ++ toString (s.ticketIdCounter + 1)
    intent := mkIntent s text now result
    mockupVariants := []
    selectedVariantIndex := none
    status := TicketStatus.generating
    createdAt := now
    linearUrl := none }

/-- One step of the client pipeline: any of the state-updating handlers
of `App.tsx`, with the outcomes of awaited calls as parameters. -/
inductive Step : AppState → AppState → Prop where
  | intent (s : AppState) (text : String) (now : Nat) (result : IntentResult)
      (gen : Except String MockupResult) :
      Step s (handleIntentResult s text now result gen)
  | selectTicket (s : AppState) (ticketId : String) :
      Step s (handleSelectTicket s ticketId)
  | removeTicket (s : AppState) (ticketId : String) :
      Step s (handleRemoveTicket s ticketId)
  | selectVariant (s : AppState) (ticketId : String) (idx : Nat) :
      Step s (handleSelectMockupVariant s ticketId idx)
  | exportTicket (s : AppState) (ticketId : String) (res : Except String ExportResult) :
      Step s (handleExportTicket s ticketId res)

/-- `TraceFrom s l` holds when `l` lists the successive states of a run
of the pipeline started in `s`. -/
inductive TraceFrom : AppState → List AppState → Prop where
  | nil (s : AppState) : TraceFrom s []
  | cons {s s' : AppState} {l : List AppState} :
      Step s s' → TraceFrom s' l → TraceFrom s (s' :: l)

/-- A concrete high-confidence classifier result (Scenario A of the
spec). -/
def res085 : IntentResult :=
  { isUiRequest := true
    confidence := mkRat 85 100
    component := some "login form"
    intent := some "improve login page design"
    context := none
    reasoningShort := none }

/-- A concrete non-UI classifier result (Scenario B of the spec). -/
def resLow : IntentResult :=
  { isUiRequest := false
    confidence := mkRat 1 10
    component := none
    intent := none
    context := none
    reasoningShort := none }

/-- A concrete two-variant generation result. -/
def mr2 : MockupResult :=
  { variants := [{ name := "Variant A", html := "<div>A</div>", css := "a-css" },
                 { name := "Variant B", html := "<div>B</div>", css := "b-css" }] }

/-- The state after the detection stage of Scenario A. -/
def s1c : AppState :=
  (detectStep initState "We need a better login page" 0 res085).1

/-- The ticket created during Scenario A. -/
def ntc : Ticket := mkTicket initState "We need a better login page" 0 res085

/-- A concrete state holding one `ready` ticket with a single variant. -/
def s7 : AppState :=
  { detectedIntents := []
    tickets := [{ id := "t1"
                  intent := mkIntent initState "We need a better login page" 0 res085
                  mockupVariants := [{ name := "Variant A", html := "<div>A</div>", css := "a-css" }]
                  selectedVariantIndex := some 0
                  status := TicketStatus.ready
                  createdAt := 0
                  linearUrl := none }]
    selectedTicketId := some "t1"
    isGeneratingMockup := false
    intentIdCounter := 1
    ticketIdCounter := 1 }

/-! ## Lemmas about the signed-cookie codec -/

theorem splitDot_no_dot (l : Str) (h : '.' ∉ l) : splitDot l = [l] := by
  induction l with
  | nil => rfl
  | cons c rest ih =>
      have hc : c ≠ '.' := fun hc => h (hc ▸ List.mem_cons_self c rest)
      have hrest : '.' ∉ rest := fun hm => h (List.mem_cons_of_mem c hm)
      simp only [splitDot, if_neg hc, ih hrest]

theorem splitDot_append (v m : Str) (h : '.' ∉ v) :
    splitDot (v ++ '.' :: m) = v :: splitDot m := by
  induction v with
  | nil => simp [splitDot]
  | cons c v ih =>
      have hc : c ≠ '.' := fun hc => h (hc ▸ List.mem_cons_self c v)
      have hv : '.' ∉ v := fun hm => h (List.mem_cons_of_mem c hm)
      simp only [List.cons_append, splitDot, if_neg hc, List.append_eq, ih hv]

theorem verifySignedValue_some_ne_nil {mac : Str → Str} {sv v : Str}
    (h : verifySignedValue mac sv = some v) : v ≠ [] := by
  unfold verifySignedValue at h
  rcases hs : splitDot sv with _ | ⟨a, _ | ⟨b, _ | ⟨c, rest⟩⟩⟩ <;> rw [hs] at h <;>
    simp only at h
  · exact Option.noConfusion h
  · exact Option.noConfusion h
  · by_cases hab : a = [] ∨ b = []
    · rw [if_pos hab] at h; exact Option.noConfusion h
    · rw [if_neg hab] at h
      by_cases hlen : b.length ≠ (sign mac a).length
      · rw [if_pos hlen] at h; exact Option.noConfusion h
      · rw [if_neg hlen] at h
        by_cases hb : b = sign mac a
        · rw [if_pos hb] at h
          cases Option.some.inj h
          exact fun ha => hab (Or.inl ha)
        · rw [if_neg hb] at h; exact Option.noConfusion h
  · exact Option.noConfusion h

theorem hexDigitChar_ne_dot (n : Nat) : hexDigitChar n ≠ '.' := by
  unfold hexDigitChar
  split <;> decide

theorem natToHex_not_dot (k n : Nat) : '.' ∉ natToHex k n := by
  induction k generalizing n with
  | zero => simp [natToHex]
  | succ k ih =>
      intro hm
      rcases List.mem_cons.mp hm with h | h
      · exact hexDigitChar_ne_dot (n % 16) h.symm
      · exact ih (n / 16) h

theorem goodMac_hmacModel (secret : Str) : GoodMac (hmacModel secret) := by
  intro v
  constructor
  · simp [hmacModel, natToHex]
  · exact natToHex_not_dot 64 _

/-! ## C2 — signed value round-trip -/

/-- C2 counterexample: the claim says `verify(sign(value)) == value` for
every string value, but a value containing a dot makes the signed blob
split into more than two parts, so verification rejects it. -/
theorem roundtrip_fails_on_dotted_value :
    verifySignedValue mac0 (createSignedValue mac0 ("a.b".toList)) ≠
      some ("a.b".toList) := by decide

/-- C2 (amended): for every nonempty value containing no dot character,
verifying the signed blob produced for that value returns the original
value, for any keyed digest with hex-shaped output. -/
theorem signed_value_roundtrip (mac : Str → Str) (hmac : GoodMac mac) (v : Str)
    (hne : v ≠ []) (hdot : '.' ∉ v) :
    verifySignedValue mac (createSignedValue mac v) = some v := by
  have hm := hmac v
  unfold createSignedValue verifySignedValue
  rw [show (sign mac v = mac v) from rfl]
  rw [splitDot_append v (mac v) hdot, splitDot_no_dot (mac v) hm.2]
  simp only [sign]
  rw [if_neg (by push_neg; exact ⟨hne, hm.1⟩)]
  simp

/-- C2 witness: the round-trip holds at a concrete dot-free value. -/
theorem signed_value_roundtrip_witness :
    verifySignedValue mac0 (createSignedValue mac0 ("hello".toList)) =
      some ("hello".toList) :=
  signed_value_roundtrip mac0 (goodMac_hmacModel secret0) ("hello".toList)
    (by decide) (by decide)

/-! ## C5 — OAuth state is single-use -/

/-- C5: `getAndValidateOAuthState` returns false when the state cookie
is missing, unverifiable, or different from the provided state; on
success it deletes the cookie and returns true, so a second call with
the same valid state (on the cookie left by the first call) returns
false. -/
theorem consumeOAuthState_single_use (mac : Str → Str) (stateCookie : Option Str)
    (providedState : Str) :
    (stateCookie = none →
        getAndValidateOAuthState mac stateCookie providedState = (false, none)) ∧
    (∀ sv, stateCookie = some sv → verifySignedValue mac sv = none →
        getAndValidateOAuthState mac stateCookie providedState = (false, some sv)) ∧
    (∀ sv st, stateCookie = some sv → verifySignedValue mac sv = some st →
        st ≠ providedState →
        getAndValidateOAuthState mac stateCookie providedState = (false, some sv)) ∧
    (∀ sv, stateCookie = some sv → verifySignedValue mac sv = some providedState →
        getAndValidateOAuthState mac stateCookie providedState = (true, none) ∧
        (getAndValidateOAuthState mac
          (getAndValidateOAuthState mac stateCookie providedState).2 providedState).1 =
            false) := by
  refine ⟨fun h => ?_, fun sv h hv => ?_, fun sv st h hv hne => ?_, fun sv h hv => ?_⟩
  · subst h; rfl
  · subst h; simp [getAndValidateOAuthState, hv]
  · subst h
    simp only [getAndValidateOAuthState, hv]
    rw [if_pos (Or.inr hne)]
  · subst h
    have hne := verifySignedValue_some_ne_nil hv
    have hfirst :
        getAndValidateOAuthState mac (some sv) providedState = (true, none) := by
      simp only [getAndValidateOAuthState, hv]
      rw [if_neg (by push_neg; exact ⟨hne, rfl⟩)]
    refine ⟨hfirst, ?_⟩
    rw [hfirst]
    rfl

/-- C5 witness: a concretely signed nonce validates once and is then
consumed. -/
theorem consumeOAuthState_single_use_witness :
    getAndValidateOAuthState mac0 (some (createSignedValue mac0 ("nonce-1".toList)))
        ("nonce-1".toList) = (true, none) ∧
    (getAndValidateOAuthState mac0
        (getAndValidateOAuthState mac0
          (some (createSignedValue mac0 ("nonce-1".toList))) ("nonce-1".toList)).2
        ("nonce-1".toList)).1 = false :=
  ((consumeOAuthState_single_use mac0
      (some (createSignedValue mac0 ("nonce-1".toList))) ("nonce-1".toList)).2.2.2
    (createSignedValue mac0 ("nonce-1".toList)) rfl (by decide))

/-! ## C10 — the nonce survives failed validation attempts -/

/-- C10: when validation fails because the cookie is unverifiable or
the provided state differs from the stored nonce, the state cookie is
not deleted, so a later call with the correct state still succeeds. -/
theorem oauth_state_kept_on_failure (mac : Str → Str) (sv providedState : Str) :
    (verifySignedValue mac sv = none →
        getAndValidateOAuthState mac (some sv) providedState = (false, some sv)) ∧
    (∀ st, verifySignedValue mac sv = some st → st ≠ providedState →
        getAndValidateOAuthState mac (some sv) providedState = (false, some sv) ∧
        (getAndValidateOAuthState mac (some sv) st).1 = true) := by
  refine ⟨fun hv => ?_, fun st hv hne => ⟨?_, ?_⟩⟩
  · simp [getAndValidateOAuthState, hv]
  · simp only [getAndValidateOAuthState, hv]
    rw [if_pos (Or.inr hne)]
  · have hnil := verifySignedValue_some_ne_nil hv
    simp only [getAndValidateOAuthState, hv]
    rw [if_neg (by push_neg; exact ⟨hnil, rfl⟩)]

/-- C10 witness: a failed attempt with the wrong state leaves the
concrete cookie in place and the correct state still validates. -/
theorem oauth_state_kept_on_failure_witness :
    getAndValidateOAuthState mac0 (some (createSignedValue mac0 ("nonce-1".toList)))
        ("nonce-2".toList) =
      (false, some (createSignedValue mac0 ("nonce-1".toList))) ∧
    (getAndValidateOAuthState mac0 (some (createSignedValue mac0 ("nonce-1".toList)))
        ("nonce-1".toList)).1 = true :=
  (oauth_state_kept_on_failure mac0 (createSignedValue mac0 ("nonce-1".toList))
      ("nonce-2".toList)).2 ("nonce-1".toList) (by decide) (by decide)

/-! ## C4 — export without a session is rejected before any network call -/

/-- C4: when the session cookie is missing or unverifiable, the
`/linear/issues` handler answers 401 with the not-connected error and
the issue-tracker client is never invoked. -/
theorem export_unauthenticated_no_calls (mac : Str → Str) (sessionCookie : Option Str)
    (createIssue : Except Str IssueResult)
    (h : getLinearAccessToken mac sessionCookie = none) :
    (linearIssuesHandler mac sessionCookie createIssue).1 =
      { status := 401, errorMsg := some notConnectedMsg, issue := none } ∧
    (linearIssuesHandler mac sessionCookie createIssue).2 = 0 := by
  simp [linearIssuesHandler, h]

/-- C4 witness: a request with no cookie at all is rejected with 401
and zero issue-tracker calls. -/
theorem export_unauthenticated_no_calls_witness :
    (linearIssuesHandler mac0 none (Except.error [])).1 =
      { status := 401, errorMsg := some notConnectedMsg, issue := none } ∧
    (linearIssuesHandler mac0 none (Except.error [])).2 = 0 :=
  export_unauthenticated_no_calls mac0 none (Except.error []) rfl

/-! ## C6 — OAuth callback failure ordering and cookie discipline -/

/-- C6: the callback checks the provider error first, then missing
`code`/`state`, then state validation; a failed validation redirects
with `invalid_state` and writes no access-token cookie, and an
access-token cookie is written only after a successful code-for-token
exchange. -/
theorem oauth_callback_check_order (mac : Str → Str)
    (code state oauthError stateCookie : Option Str) (exchange : Except Str Str) :
    (jsTruthy oauthError = true →
        authLinearCallback mac code state oauthError stateCookie exchange =
          { redirectError := some (oauthError.getD [])
            sessionCookie := none
            stateCookie := stateCookie }) ∧
    (jsTruthy oauthError = false →
        (jsTruthy code = false ∨ jsTruthy state = false) →
        authLinearCallback mac code state oauthError stateCookie exchange =
          { redirectError := some missingCodeOrStateErr
            sessionCookie := none
            stateCookie := stateCookie }) ∧
    (jsTruthy oauthError = false → jsTruthy code = true → jsTruthy state = true →
        (getAndValidateOAuthState mac stateCookie (state.getD [])).1 = false →
        (authLinearCallback mac code state oauthError stateCookie exchange).redirectError =
            some invalidStateErr ∧
        (authLinearCallback mac code state oauthError stateCookie exchange).sessionCookie =
            none) ∧
    (∀ cv,
        (authLinearCallback mac code state oauthError stateCookie exchange).sessionCookie =
            some cv →
        ∃ token, exchange = Except.ok token ∧ cv = createSignedValue mac token ∧
          (getAndValidateOAuthState mac stateCookie (state.getD [])).1 = true) := by
  refine ⟨fun he => ?_, fun he hcs => ?_, fun he hc hs hval => ?_, fun cv hcv => ?_⟩
  · simp [authLinearCallback, he]
  · have : (!jsTruthy code || !jsTruthy state) = true := by
      rcases hcs with h | h <;> simp [h]
    simp [authLinearCallback, he, this]
  · have hcs : (!jsTruthy code || !jsTruthy state) = false := by simp [hc, hs]
    simp [authLinearCallback, he, hcs, hval]
  · unfold authLinearCallback at hcv
    by_cases he : jsTruthy oauthError
    · rw [if_pos he] at hcv; cases hcv
    · rw [if_neg (by simp [he])] at hcv
      by_cases hcs : (!jsTruthy code || !jsTruthy state) = true
      · rw [if_pos hcs] at hcv; cases hcv
      · rw [if_neg hcs] at hcv
        by_cases hval : (getAndValidateOAuthState mac stateCookie (state.getD [])).1
        · rw [if_pos hval] at hcv
          cases exchange with
          | ok token =>
              simp only at hcv
              exact ⟨token, rfl, (Option.some.inj hcv).symm, hval⟩
          | error msg => simp only at hcv; cases hcv
        · rw [if_neg hval] at hcv; cases hcv

/-- C6 witness: with no provider error, both parameters present, and a
state that does not validate against the concretely issued state
cookie, the callback redirects with `invalid_state` and writes no
access-token cookie. -/
theorem oauth_callback_check_order_witness :
    (authLinearCallback mac0 (some ("authcode".toList)) (some ("nonce-2".toList)) none
        (some (createSignedValue mac0 ("nonce-1".toList)))
        (Except.ok ("tok".toList))).redirectError = some invalidStateErr ∧
    (authLinearCallback mac0 (some ("authcode".toList)) (some ("nonce-2".toList)) none
        (some (createSignedValue mac0 ("nonce-1".toList)))
        (Except.ok ("tok".toList))).sessionCookie = none :=
  (oauth_callback_check_order mac0 (some ("authcode".toList)) (some ("nonce-2".toList))
      none (some (createSignedValue mac0 ("nonce-1".toList)))
      (Except.ok ("tok".toList))).2.2.1 rfl (by decide) (by decide) (by decide)

/-! ## Branch lemmas for the detection step -/

theorem detectStep_low (s : AppState) (text : String) (now : Nat) (result : IntentResult)
    (h : ¬(result.isUiRequest = true ∧ mkRat 6 10 < result.confidence)) :
    detectStep s text now result = (s, none) := by
  unfold detectStep
  rw [if_neg h]

theorem detectStep_mid (s : AppState) (text : String) (now : Nat) (result : IntentResult)
    (h1 : result.isUiRequest = true ∧ mkRat 6 10 < result.confidence)
    (h2 : ¬ mkRat 7 10 < result.confidence) :
    detectStep s text now result =
      ({ s with
          detectedIntents := s.detectedIntents ++ [mkIntent s text now result]
          intentIdCounter := s.intentIdCounter + 1 }, none) := by
  simp only [detectStep, if_pos h1, if_neg h2]
  rfl

theorem detectStep_high (s : AppState) (text : String) (now : Nat) (result : IntentResult)
    (h1 : result.isUiRequest = true ∧ mkRat 6 10 < result.confidence)
    (h2 : mkRat 7 10 < result.confidence) :
    detectStep s text now result =
      ({ s with
          detectedIntents := s.detectedIntents ++ [mkIntent s text now result]
          intentIdCounter := s.intentIdCounter + 1
          tickets := s.tickets ++ [mkTicket s text now result]
          selectedTicketId := some (mkTicket s text now result).id
          ticketIdCounter := s.ticketIdCounter + 1 }, some (mkTicket s text now result)) := by
  simp only [detectStep, if_pos h1, if_pos h2]
  rfl

/-! ## C1 — confidence gating -/

/-- C1: a classifier result that is not a UI request or has confidence
at most 0.6 changes nothing; with confidence in (0.6, 0.7] exactly one
`DetectedIntent` is surfaced and no ticket is created; with confidence
above 0.7 the intent is surfaced and exactly one ticket is created, in
status `generating`. -/
theorem intent_confidence_gating (s : AppState) (text : String) (now : Nat)
    (result : IntentResult) :
    ((result.isUiRequest = false ∨ result.confidence ≤ mkRat 6 10) →
        detectStep s text now result = (s, none) ∧
        ∀ gen, handleIntentResult s text now result gen = s) ∧
    (result.isUiRequest = true → mkRat 6 10 < result.confidence →
        result.confidence ≤ mkRat 7 10 →
        (detectStep s text now result).1.detectedIntents =
            s.detectedIntents ++ [mkIntent s text now result] ∧
        (detectStep s text now result).1.tickets = s.tickets ∧
        (detectStep s text now result).2 = none) ∧
    (result.isUiRequest = true → mkRat 7 10 < result.confidence →
        (detectStep s text now result).1.detectedIntents =
            s.detectedIntents ++ [mkIntent s text now result] ∧
        (detectStep s text now result).1.tickets =
            s.tickets ++ [mkTicket s text now result] ∧
        (detectStep s text now result).2 = some (mkTicket s text now result) ∧
        (mkTicket s text now result).status = TicketStatus.generating) := by
  refine ⟨fun h => ?_, fun hui hgt hle => ?_, fun hui hgt => ?_⟩
  · have hneg : ¬(result.isUiRequest = true ∧ mkRat 6 10 < result.confidence) := by
      rcases h with h | h
      · exact fun hc => by rw [h] at hc; exact Bool.noConfusion hc.1
      · exact fun hc => absurd hc.2 (not_lt.mpr h)
    refine ⟨detectStep_low s text now result hneg, fun gen => ?_⟩
    unfold handleIntentResult
    rw [detectStep_low s text now result hneg]
  · have hm := detectStep_mid s text now result ⟨hui, hgt⟩ (not_lt.mpr hle)
    refine ⟨?_, ?_, ?_⟩ <;> rw [hm]
  · have hh := detectStep_high s text now result ⟨hui, lt_trans (by decide) hgt⟩ hgt
    refine ⟨?_, ?_, ?_, rfl⟩ <;> rw [hh]

/-- C1 witness: a non-UI result with confidence 0.1 is discarded
without touching the state. -/
theorem intent_confidence_gating_witness :
    detectStep initState "When is our next meeting?" 0 resLow = (initState, none) :=
  ((intent_confidence_gating initState "When is our next meeting?" 0 resLow).1
    (Or.inl rfl)).1

/-! ## C3 — ticket lifecycle through mockup generation -/

/-- C3: a ticket created by the detection step starts in `generating`
with no variants and no selected index; applying a successful
generation result moves exactly that ticket to `ready` with the
returned variants and selected index 0, and a failed generation moves
it to `pending` with its variants still empty. -/
theorem ticket_generation_lifecycle (s : AppState) (text : String) (now : Nat)
    (result : IntentResult) (s1 : AppState) (nt : Ticket)
    (hds : detectStep s text now result = (s1, some nt))
    (hfresh : ∀ u ∈ s.tickets, u.id ≠ nt.id) :
    nt.status = TicketStatus.generating ∧ nt.mockupVariants = [] ∧
    nt.selectedVariantIndex = none ∧
    (∀ mr, (applyGeneration s1 nt.id (Except.ok mr)).tickets =
        s.tickets ++ [{ nt with
          mockupVariants := mr.variants
          selectedVariantIndex := some 0
          status := TicketStatus.ready }]) ∧
    (∀ e, (applyGeneration s1 nt.id (Except.error e)).tickets =
        s.tickets ++ [{ nt with status := TicketStatus.pending }]) := by
  by_cases h1 : result.isUiRequest = true ∧ mkRat 6 10 < result.confidence
  · by_cases h2 : mkRat 7 10 < result.confidence
    · have hh := detectStep_high s text now result h1 h2
      rw [hds] at hh
      have hs1 : s1 = { s with
          detectedIntents := s.detectedIntents ++ [mkIntent s text now result]
          intentIdCounter := s.intentIdCounter + 1
          tickets := s.tickets ++ [mkTicket s text now result]
          selectedTicketId := some (mkTicket s text now result).id
          ticketIdCounter := s.ticketIdCounter + 1 } :=
        congrArg Prod.fst hh
      have hnt : nt = mkTicket s text now result :=
        Option.some.inj (congrArg Prod.snd hh)
      have htickets : s1.tickets = s.tickets ++ [nt] := by
        rw [hs1, hnt]
      have hmapold : ∀ f : Ticket → Ticket,
          (s.tickets.map fun u => if u.id = nt.id then f u else u) = s.tickets := by
        intro f
        have : ∀ u ∈ s.tickets,
            (fun u => if u.id = nt.id then f u else u) u = id u := by
          intro u hu
          simp [hfresh u hu]
        rw [List.map_congr_left this, List.map_id]
      subst hnt
      refine ⟨rfl, rfl, rfl, fun mr => ?_, fun e => ?_⟩
      · simp only [applyGeneration, htickets, List.map_append]
        rw [hmapold]
        simp [mkTicket]
      · simp only [applyGeneration, htickets, List.map_append]
        rw [hmapold]
        simp [mkTicket]
    · have hm := detectStep_mid s text now result h1 h2
      rw [hds] at hm
      exact Option.noConfusion (congrArg Prod.snd hm)
  · have hl := detectStep_low s text now result h1
    rw [hds] at hl
    exact Option.noConfusion (congrArg Prod.snd hl)

/-- C3 witness: the Scenario A ticket is created in `generating` with
no variants. -/
theorem ticket_generation_lifecycle_witness :
    ntc.status = TicketStatus.generating ∧ ntc.mockupVariants = [] ∧
    ntc.selectedVariantIndex = none :=
  have h := ticket_generation_lifecycle initState "We need a better login page" 0 res085
    s1c ntc (by decide) (by decide)
  ⟨h.1, h.2.1, h.2.2.1⟩

/-! ## C7 — variant selection is not bounds-checked -/

/-- C7 counterexample: selecting an out-of-range variant index is not a
no-op — `handleSelectMockupVariant` stores the index unchecked and the
selected-index invariant is broken on a concrete state. -/
theorem selectVariant_not_bounds_checked :
    handleSelectMockupVariant s7 "t1" 5 ≠ s7 ∧
    ¬ selectedIndexInvariant (handleSelectMockupVariant s7 "t1" 5) := by
  constructor
  · decide
  · decide

/-- C7 (amended): `selectVariant` is a pure state update that stores
the given index unconditionally, touching nothing else; the
selected-index invariant is preserved only when the caller passes an
in-range index for the targeted ticket. -/
theorem selectVariant_unconditional_update (s : AppState) (ticketId : String) (idx : Nat)
    (hinv : selectedIndexInvariant s)
    (hidx : ∀ t ∈ s.tickets, t.id = ticketId → idx < t.mockupVariants.length) :
    selectedIndexInvariant (handleSelectMockupVariant s ticketId idx) ∧
    ∀ t' ∈ (handleSelectMockupVariant s ticketId idx).tickets,
      ∃ t ∈ s.tickets, t'.id = t.id ∧ t'.status = t.status ∧
        t'.mockupVariants = t.mockupVariants ∧
        (t'.selectedVariantIndex = t.selectedVariantIndex ∨
          (t.id = ticketId ∧ t'.selectedVariantIndex = some idx)) := by
  constructor
  · intro t' ht'
    rcases List.mem_map.mp ht' with ⟨t, ht, hft⟩
    by_cases hid : t.id = ticketId
    · rw [if_pos hid] at hft
      intro i hi
      rw [← hft] at hi
      simp only at hi
      cases Option.some.inj hi
      rw [← hft]
      exact hidx t ht hid
    · rw [if_neg hid] at hft
      rw [← hft]
      exact hinv t ht
  · intro t' ht'
    rcases List.mem_map.mp ht' with ⟨t, ht, hft⟩
    by_cases hid : t.id = ticketId
    · rw [if_pos hid] at hft
      exact ⟨t, ht, by rw [← hft], by rw [← hft], by rw [← hft],
        Or.inr ⟨hid, by rw [← hft]⟩⟩
    · rw [if_neg hid] at hft
      exact ⟨t, ht, by rw [hft], by rw [hft], by rw [hft], Or.inl (by rw [hft])⟩

/-- C7 witness: selecting the in-range index 0 on the concrete state
preserves the invariant. -/
theorem selectVariant_unconditional_update_witness :
    selectedIndexInvariant (handleSelectMockupVariant s7 "t1" 0) :=
  (selectVariant_unconditional_update s7 "t1" 0 (by decide) (by decide)).1

/-! ## C9 — debounce keeps only the last fragment of a burst -/

/-- C9: when a second final fragment arrives within the debounce window
of the first, the pending timer is cancelled and restarted, so exactly
one classification happens and it uses the second fragment's text. -/
theorem debounce_single_classification (t gap : Nat) (a b : String)
    (h : gap < INTENT_DETECTION_DELAY_MS) :
    debounceRun none [(t, a), (t + gap, b)] = [b] := by
  have hlt : ¬ t + INTENT_DETECTION_DELAY_MS ≤ t + gap := by omega
  simp [debounceRun, hlt]

/-- C9 witness: two fragments 200 ms apart produce one classification
of the second text. -/
theorem debounce_single_classification_witness :
    debounceRun none [(0, "first"), (0 + 200, "second")] = ["second"] :=
  debounce_single_classification 0 200 "first" "second" (by decide)

/-! ## C8 — `exported` is reached only from `ready`, with the URL recorded -/

theorem applyGeneration_exported {s : AppState} {tid : String}
    {gen : Except String MockupResult} {t' : Ticket}
    (ht' : t' ∈ (applyGeneration s tid gen).tickets)
    (hx : t'.status = TicketStatus.exported) : t' ∈ s.tickets := by
  cases gen with
  | ok mr =>
      simp only [applyGeneration] at ht'
      rcases List.mem_map.mp ht' with ⟨t, ht, hft⟩
      by_cases hid : t.id = tid
      · rw [if_pos hid] at hft
        rw [← hft] at hx
        exact TicketStatus.noConfusion hx
      · rw [if_neg hid] at hft
        rw [← hft]
        exact ht
  | error e =>
      simp only [applyGeneration] at ht'
      rcases List.mem_map.mp ht' with ⟨t, ht, hft⟩
      by_cases hid : t.id = tid
      · rw [if_pos hid] at hft
        rw [← hft] at hx
        exact TicketStatus.noConfusion hx
      · rw [if_neg hid] at hft
        rw [← hft]
        exact ht

theorem handleIntentResult_exported {s : AppState} {text : String} {now : Nat}
    {result : IntentResult} {gen : Except String MockupResult} {t' : Ticket}
    (ht' : t' ∈ (handleIntentResult s text now result gen).tickets)
    (hx : t'.status = TicketStatus.exported) : t' ∈ s.tickets := by
  unfold handleIntentResult at ht'
  by_cases h1 : result.isUiRequest = true ∧ mkRat 6 10 < result.confidence
  · by_cases h2 : mkRat 7 10 < result.confidence
    · rw [detectStep_high s text now result h1 h2] at ht'
      simp only at ht'
      have ht2 := applyGeneration_exported ht' hx
      simp only at ht2
      rcases List.mem_append.mp ht2 with h | h
      · exact h
      · exfalso
        rw [List.mem_singleton.mp h] at hx
        exact TicketStatus.noConfusion hx
    · rw [detectStep_mid s text now result h1 h2] at ht'
      simp only at ht'
      exact ht'
  · rw [detectStep_low s text now result h1] at ht'
    simp only at ht'
    exact ht'

theorem step_exported {s s' : AppState} {t' : Ticket} (hs : Step s s')
    (ht' : t' ∈ s'.tickets) (hx : t'.status = TicketStatus.exported) :
    (∃ t ∈ s.tickets, t.id = t'.id ∧ t.status = TicketStatus.exported ∧
        t.linearUrl = t'.linearUrl) ∨
    (∃ t ∈ s.tickets, t.id = t'.id ∧ t.status = TicketStatus.ready ∧
        t'.linearUrl ≠ none) := by
  cases hs with
  | intent text now result gen =>
      exact Or.inl ⟨t', handleIntentResult_exported ht' hx, rfl, hx, rfl⟩
  | selectTicket tid =>
      exact Or.inl ⟨t', ht', rfl, hx, rfl⟩
  | removeTicket tid =>
      simp only [handleRemoveTicket] at ht'
      exact Or.inl ⟨t', (List.mem_filter.mp ht').1, rfl, hx, rfl⟩
  | selectVariant tid idx =>
      simp only [handleSelectMockupVariant] at ht'
      rcases List.mem_map.mp ht' with ⟨t, ht, hft⟩
      by_cases hid : t.id = tid
      · rw [if_pos hid] at hft
        refine Or.inl ⟨t, ht, ?_, ?_, ?_⟩
        · rw [← hft]
        · rw [← hft] at hx
          exact hx
        · rw [← hft]
      · rw [if_neg hid] at hft
        rw [← hft]
        exact Or.inl ⟨t, ht, rfl, hft ▸ hx, rfl⟩
  | exportTicket tid res =>
      unfold handleExportTicket at ht'
      rcases hf : s.tickets.find? (fun t => t.id == tid) with _ | ticket <;>
        rw [hf] at ht' <;> simp only at ht'
      · exact Or.inl ⟨t', ht', rfl, hx, rfl⟩
      · by_cases hst : ticket.status ≠ TicketStatus.ready
        · rw [if_pos hst] at ht'
          exact Or.inl ⟨t', ht', rfl, hx, rfl⟩
        · rw [if_neg hst] at ht'
          rcases hv : ticket.mockupVariants[ticket.selectedVariantIndex.getD 0]? with _ | var <;>
            rw [hv] at ht' <;> simp only at ht'
          · exact Or.inl ⟨t', ht', rfl, hx, rfl⟩
          · cases res with
            | ok r =>
                simp only at ht'
                rcases List.mem_map.mp ht' with ⟨t, ht, hft⟩
                by_cases hid : t.id = tid
                · rw [if_pos hid] at hft
                  refine Or.inr ⟨ticket, List.mem_of_find?_eq_some hf, ?_, ?_, ?_⟩
                  · have : ticket.id = tid := by simpa using List.find?_some hf
                    rw [this, ← hft, hid]
                  · exact not_ne_iff.mp hst
                  · rw [← hft]
                    simp
                · rw [if_neg hid] at hft
                  rw [← hft]
                  exact Or.inl ⟨t, ht, rfl, hft ▸ hx, rfl⟩
            | error e =>
                simp only at ht'
                exact Or.inl ⟨t', ht', rfl, hx, rfl⟩

theorem step_preserves_exported_url {s s' : AppState} (hs : Step s s')
    (hinv : ∀ t ∈ s.tickets, t.status = TicketStatus.exported → t.linearUrl ≠ none) :
    ∀ t' ∈ s'.tickets, t'.status = TicketStatus.exported → t'.linearUrl ≠ none := by
  intro t' ht' hx
  rcases step_exported hs ht' hx with ⟨t, ht, _, hexp, hurl⟩ | ⟨t, ht, _, _, hurl⟩
  · exact hurl ▸ hinv t ht hexp
  · exact hurl

theorem trace_exported_aux {s : AppState} {l : List AppState} (htr : TraceFrom s l)
    (hinv : ∀ t ∈ s.tickets, t.status = TicketStatus.exported → t.linearUrl ≠ none) :
    ∀ i, ∀ hi : i < l.length, ∀ t', t' ∈ (l.get ⟨i, hi⟩).tickets →
      t'.status = TicketStatus.exported →
      t'.linearUrl ≠ none ∧
      ((∃ t ∈ s.tickets, t.id = t'.id ∧ t.status = TicketStatus.exported) ∨
        ∃ j, ∃ hj : j < (s :: l).length, j ≤ i ∧
          ∃ t ∈ ((s :: l).get ⟨j, hj⟩).tickets,
            t.id = t'.id ∧ t.status = TicketStatus.ready) := by
  induction htr with
  | nil s => intro i hi; exact absurd hi (by simp)
  | @cons s s' l' hstep htl ih =>
      have hinv' := step_preserves_exported_url hstep hinv
      intro i hi t' ht' hx
      cases i with
      | zero =>
          simp only [List.get] at ht'
          rcases step_exported hstep ht' hx with
            ⟨t, ht, hid, hexp, hurl⟩ | ⟨t, ht, hid, hready, hurl⟩
          · exact ⟨hurl ▸ hinv t ht hexp, Or.inl ⟨t, ht, hid, hexp⟩⟩
          · exact ⟨hurl, Or.inr ⟨0, by simp, Nat.zero_le 0, t, ht, hid, hready⟩⟩
      | succ k =>
          have hk : k < l'.length := by simpa using hi
          have hih := ih hinv' k hk t' (by simpa using ht') hx
          refine ⟨hih.1, ?_⟩
          rcases hih.2 with ⟨t2, ht2, hid2, hexp2⟩ | ⟨j, hj, hji, t, ht, hid, hready⟩
          · rcases step_exported hstep ht2 hexp2 with
              ⟨t, ht, hid, hexp, _⟩ | ⟨t, ht, hid, hready, _⟩
            · exact Or.inl ⟨t, ht, hid.trans hid2, hexp⟩
            · exact Or.inr ⟨0, by simp, Nat.zero_le _, t, ht, hid.trans hid2, hready⟩
          · refine Or.inr ⟨j + 1, by simpa using hj, Nat.succ_le_succ hji, t, ?_, hid, hready⟩
            simpa using ht

/-- C8: in every run of the pipeline from the initial state, an
`exported` ticket always carries a recorded issue URL, and some earlier
state of the run contains a `ready` ticket with the same id — a ticket
never reaches `exported` without first having been `ready`. -/
theorem exported_requires_ready_in_trace (l : List AppState)
    (htr : TraceFrom initState l) (i : Nat) (hi : i < l.length) (t' : Ticket)
    (ht' : t' ∈ (l.get ⟨i, hi⟩).tickets) (hx : t'.status = TicketStatus.exported) :
    t'.linearUrl ≠ none ∧
    ∃ j, ∃ hj : j < (initState :: l).length, j ≤ i ∧
      ∃ t ∈ ((initState :: l).get ⟨j, hj⟩).tickets,
        t.id = t'.id ∧ t.status = TicketStatus.ready := by
  have h := trace_exported_aux htr (by intro t ht; exact absurd ht (by simp [initState]))
    i hi t' ht' hx
  refine ⟨h.1, ?_⟩
  rcases h.2 with ⟨t, ht, _, _⟩ | hr
  · exact absurd ht (by simp [initState])
  · exact hr

/-- C8 witness: a concrete two-step run — Scenario A detection and
generation, then a successful export — satisfies the theorem at the
exported ticket. -/
theorem exported_requires_ready_in_trace_witness :
    ({ id := "ticket-1"
       intent := mkIntent initState "We need a better login page" 0 res085
       mockupVariants := mr2.variants
       selectedVariantIndex := some 0
       status := TicketStatus.exported
       createdAt := 0
       linearUrl := some "https://linear.app/x" } : Ticket).linearUrl ≠ none :=
  (exported_requires_ready_in_trace
    [handleIntentResult initState "We need a better login page" 0 res085 (Except.ok mr2),
     handleExportTicket
       (handleIntentResult initState "We need a better login page" 0 res085 (Except.ok mr2))
       "ticket-1" (Except.ok { id := "ISS-1", url := "https://linear.app/x" })]
    (TraceFrom.cons
      (Step.intent initState "We need a better login page" 0 res085 (Except.ok mr2))
      (TraceFrom.cons
        (Step.exportTicket
          (handleIntentResult initState "We need a better login page" 0 res085
            (Except.ok mr2))
          "ticket-1" (Except.ok { id := "ISS-1", url := "https://linear.app/x" }))
        (TraceFrom.nil _)))
    1 (by decide) _ (by decide) (by decide)).1

end Oncall
